import Mathlib

/-!
Verification of the natural-language-to-SQL pipeline of the
`ai-sql-streamlit` repository (files `llm_app.py` and `app.py`).

Strings are embedded as `List Char`.  The Python regular-expression calls in
`extract_sql_from_response` are embedded by their derived first-match
semantics, spelled out step by step below; the Streamlit session is embedded
as an explicit state record, with one function per user-action handler.  The
external collaborators (the OpenAI chat-completion call and the SQLite
backend) are passed in as oracles returning either a value or the message of
the exception they raise.
-/

/-- The whitespace class used by Python's `\s` and `str.strip` (ASCII part,
which is the only part exercised by the pipeline). -/
def pyWs (c : Char) : Bool :=
  c == ' ' || c == '\t' || c == '\n' || c == '\r' || c == '\x0b' || c == '\x0c'

/-- Remove trailing whitespace (the effect of a greedy `\s*` ending a match). -/
def stripTrail (l : List Char) : List Char :=
  (l.reverse.dropWhile pyWs).reverse

/-- Python `str.strip()`: remove leading and trailing whitespace. -/
def pyStrip (l : List Char) : List Char :=
  stripTrail (l.dropWhile pyWs)

/-- The three-backtick fence delimiting a code block. -/
def fenceChars : List Char := ['`', '`', '`']

/-- Does the list start with a three-backtick fence? -/
def isFence : List Char → Bool
  | a :: b :: c :: _ => a == '`' && b == '`' && c == '`'
  | _ => false

/-- Does the list start with a fence immediately followed by the tag `sql`,
case-insensitively (the `IGNORECASE` flag of the first pattern matters only
for the three letters; ASCII case pairs are the ones exercised)? -/
def tagSql : List Char → Bool
  | a :: b :: c :: d :: e :: f :: _ =>
    a == '`' && b == '`' && c == '`' &&
    (d == 's' || d == 'S') && (e == 'q' || e == 'Q') && (f == 'l' || f == 'L')
  | _ => false

/-- Split at the first fence occurrence: `splitAtFence t = some (pre, post)`
when `t = pre ++ fenceChars ++ post` and `pre` contains no fence start. -/
def splitAtFence : List Char → Option (List Char × List Char)
  | [] => none
  | c :: cs =>
    if isFence (c :: cs) then some ([], (c :: cs).drop 3)
    else (splitAtFence cs).map (fun pr => (c :: pr.1, pr.2))

/-- Match `\s*` (greedy) followed by a fence, returning what follows the
fence.  Greediness is exact here: a fence starts with a backtick, which is
not whitespace, so the only position the closing fence can start at is the
end of the maximal whitespace run. -/
def fenceAfterWs (s : List Char) : Option (List Char) :=
  if isFence (s.dropWhile pyWs) then some ((s.dropWhile pyWs).drop 3) else none

/-- The lazy capture `(.*?)\s*` followed by the closing fence (with `DOTALL`,
so the capture crosses newlines): the capture grows one character at a time
(shortest first, as a lazy quantifier backtracks) until the rest of the input
is whitespace followed by a fence.  Returns the capture and the input
remaining after the closing fence. -/
def capRun : List Char → Option (List Char × List Char)
  | [] => none
  | c :: cs =>
    match fenceAfterWs (c :: cs) with
    | some rest => some ([], rest)
    | none => (capRun cs).map (fun pr => (c :: pr.1, pr.2))

/-- First match of the pattern `(backtick-fence)sql\s*(.*?)\s*(backtick-fence)`
with `DOTALL | IGNORECASE` (the `sql_pattern` of `extract_sql_from_response`),
returning the first match's capture group, as `re.findall(...)[0]` does:
scan left to right for a position carrying the fence-plus-`sql` tag at which
the rest of the pattern also completes. -/
def findallSqlFirst : List Char → Option (List Char)
  | [] => none
  | c :: cs =>
    if tagSql (c :: cs) then
      match capRun (((c :: cs).drop 6).dropWhile pyWs) with
      | some pr => some pr.1
      | none => findallSqlFirst cs
    else findallSqlFirst cs

/-- The tail `\s*(.*?)\s*(backtick-fence)` of both patterns, applied after the
leading greedy `\s*` has been committed (exact, see `fenceAfterWs`). -/
def capRunWs (t : List Char) : Option (List Char × List Char) :=
  capRun (t.dropWhile pyWs)

/-- The greedy `(?:.*)?` of the `code_pattern`, with `DOTALL`: it prefers to
consume as much as possible, backtracking one character at a time from the
end; so the suffixes left for the tail matcher are tried shortest first, and
the first suffix on which the tail completes wins. -/
def greedyAnyThen (t : List Char) : Option (List Char × List Char) :=
  t.tails.reverse.findSome? capRunWs

/-- First match of the pattern
`(backtick-fence)(?:.*)?\s*(.*?)\s*(backtick-fence)` with `DOTALL` (the
`code_pattern` of `extract_sql_from_response`), returning the first match's
capture group. -/
def findallCodeFirst : List Char → Option (List Char)
  | [] => none
  | c :: cs =>
    if isFence (c :: cs) then
      match greedyAnyThen ((c :: cs).drop 3) with
      | some pr => some pr.1
      | none => findallCodeFirst cs
    else findallCodeFirst cs

/-- `extract_sql_from_response` of `llm_app.py`: try the `sql`-tagged pattern,
then the generic code-fence pattern, then fall back to the stripped raw text;
a found match is returned stripped. -/
def extract_sql_from_response (response_text : List Char) : List Char :=
  match findallSqlFirst response_text with
  | some m => pyStrip m
  | none =>
    match findallCodeFirst response_text with
    | some m => pyStrip m
    | none => pyStrip response_text

/-- The `sql_pattern` first-match semantics restated over `splitAtFence`:
the first fence whose following characters merely *begin* with `sql`
(case-insensitively, the code's `tagSql` test) and that is closed by a later
fence; the text strictly between the six-character prefix and the next
fence, trimmed.  This mirrors the code's prefix tag test — a tag such as
`sqlite` also matches, and the remainder of its info string lands in the
returned content; see `specFirstSqlBlock` for the spec's
explicitly-tagged reading. -/
def prefixSqlBlock : List Char → Option (List Char)
  | [] => none
  | c :: cs =>
    if tagSql (c :: cs) then
      match splitAtFence ((c :: cs).drop 6) with
      | some pr => some (pyStrip pr.1)
      | none => prefixSqlBlock cs
    else prefixSqlBlock cs

/-- Does the list start with a fence whose info string is *exactly* `sql`
(case-insensitively)?  Following the spec's words — "a fenced block
explicitly tagged as SQL" — the three letters must be the whole tag: they are
followed by nothing, by whitespace, or immediately by the closing fence. -/
def tagSqlExact : List Char → Bool
  | a :: b :: c :: d :: e :: f :: rest =>
    a == '`' && b == '`' && c == '`' &&
    (d == 's' || d == 'S') && (e == 'q' || e == 'Q') && (f == 'l' || f == 'L') &&
    (match rest with
     | [] => true
     | g :: _ => pyWs g || g == '`')
  | _ => false

/-- Following the spec's words: the first fenced block explicitly tagged
`sql` (case-insensitively, the tag being the whole info string) that is
closed by a later fence; its content — the text strictly between the tag and
the next fence — trimmed. -/
def specFirstSqlBlock : List Char → Option (List Char)
  | [] => none
  | c :: cs =>
    if tagSqlExact (c :: cs) then
      match splitAtFence ((c :: cs).drop 6) with
      | some pr => some (pyStrip pr.1)
      | none => specFirstSqlBlock cs
    else specFirstSqlBlock cs

/-- Following the spec's words: the first generic fenced code block that is
closed by a later fence; its content — the text strictly between the two
fences — trimmed. -/
def specFirstGenericBlock : List Char → Option (List Char)
  | [] => none
  | c :: cs =>
    if isFence (c :: cs) then
      match splitAtFence ((c :: cs).drop 3) with
      | some pr => some (pyStrip pr.1)
      | none => specFirstGenericBlock cs
    else specFirstGenericBlock cs

/-- The narrow shape of the chat-completion response that the pipeline reads:
`response.choices[0].message` content, a single text field. -/
structure ChatResponse where
  content : List Char
deriving DecidableEq

/-- A materialized tabular result (the `pandas.DataFrame` the executors
return): ordered column names plus ordered rows of values.  `len(df)` is
`rows.length`. -/
structure Df where
  columns : List (List Char)
  rows : List (List (List Char))
deriving DecidableEq

/-- `run_query` of `llm_app.py`.  `conn` is whether `get_db_connection`
produced a connection (it shows its own message when it fails, so no message
is emitted here in that case); `db` is the SQLite backend, mapping the SQL
text to either a table or the message of the exception it raises.  Returns
the optional table together with the list of messages shown via `st.error`. -/
def run_query (conn : Bool) (db : List Char → Except (List Char) Df)
    (sql : List Char) : Option Df × List (List Char) :=
  if conn then
    match db sql with
    | .ok df => (some df, [])
    | .error e => (none, [("Error executing query: ".toList ++ e)])
  else (none, [])

/-- `query_db` of `app.py`: on failure it shows `SQL error: ...` and returns
`pd.DataFrame()`, the empty table (not an absent one). -/
def query_db (db : List Char → Except (List Char) Df)
    (sql_query : List Char) : Df × List (List Char) :=
  match db sql_query with
  | .ok df => (df, [])
  | .error e => (⟨[], []⟩, [("SQL error: ".toList ++ e)])

/-- `generate_sql_with_gpt` of `llm_app.py`.  `call n` is the outcome of the
`n`-th chat-completion attempt on the prompt built from the question (a
response or the message of the raised exception).  Returns the optional
extracted SQL, the messages shown via `st.error`, and the number of attempts
made: the body performs exactly one `client.chat.completions.create` call
inside a `try`, so only `call 0` is consulted. -/
def generate_sql_with_gpt (call : Nat → Except (List Char) ChatResponse) :
    Option (List Char) × List (List Char) × Nat :=
  match call 0 with
  | .ok resp => (some (extract_sql_from_response resp.content), [], 1)
  | .error e => (none, [("Error calling OpenAI API: ".toList ++ e)], 1)

/-- `ask_openai` of `app.py`: a single chat-completion call with no
`try`/`except` around it — a raised exception propagates to the caller, which
the `Except` result records. -/
def ask_openai (call : Except (List Char) ChatResponse) :
    Except (List Char) (List Char) :=
  call.map ChatResponse.content

/-- One row of `st.session_state.query_history` in `llm_app.py`:
`{'question': ..., 'sql': ..., 'rows': len(df)}`. -/
structure HistoryEntry where
  question : List Char
  sql : List Char
  rows : Nat
deriving DecidableEq

/-- The per-session mutable state of `llm_app.py`:
`st.session_state.{generated_sql, current_question, query_history}`,
initialized to `None`, `None`, `[]`. -/
structure SessionState where
  generated_sql : Option (List Char)
  current_question : Option (List Char)
  query_history : List HistoryEntry
deriving DecidableEq

/-- The invalidation step at the top of the generate handler (`llm_app.py`):
if the stored `current_question` differs from the (stripped) question being
generated for, both `generated_sql` and `current_question` are reset to
`None` — this is the state in force when `generate_sql_with_gpt` is then
called. -/
def generateClear (st : SessionState) (uq : List Char) : SessionState :=
  if st.current_question ≠ some uq then
    { st with generated_sql := none, current_question := none }
  else st

/-- The `Generate SQL` handler of `llm_app.py`'s `main`
(`if generate_button and user_question:`): the guard is Python truthiness of
the raw text-area content, the question is then stripped, stale state is
cleared via `generateClear`, and the generator is called; its result is
stored only when truthy (`if sql_query:`), so an absent or empty result
leaves the cleared state in place.  The second component reports whether
`generate_sql_with_gpt` was invoked. -/
def generateAction (st : SessionState) (generate_button : Bool)
    (user_question : List Char) (call : Nat → Except (List Char) ChatResponse) :
    SessionState × Bool :=
  if generate_button ∧ user_question ≠ [] then
    let uq := pyStrip user_question
    let st1 := generateClear st uq
    match (generate_sql_with_gpt call).1 with
    | some sql =>
      (if sql ≠ [] then
        { st1 with generated_sql := some sql, current_question := some uq }
       else st1, true)
    | none => (st1, true)
  else (st, false)

/-- The `Run Query` handler of `llm_app.py`'s `main`
(`if run_button and edited_sql.strip():`): run the (possibly edited) SQL and,
only when a table came back (`if df is not None:`), append
`{'question': user_question, 'sql': edited_sql, 'rows': len(df)}` to the
history — `user_question` being the text-area content of this rerun. -/
def runAction (st : SessionState) (run_button : Bool)
    (edited_sql user_question : List Char) (conn : Bool)
    (db : List Char → Except (List Char) Df) : SessionState :=
  if run_button ∧ pyStrip edited_sql ≠ [] then
    match (run_query conn db edited_sql).1 with
    | some df =>
      { st with query_history :=
          st.query_history ++ [⟨user_question, edited_sql, df.rows.length⟩] }
    | none => st
  else st

/-- One full rerun of `llm_app.py`'s `main` after session-state
initialization, with the widget values of this rerun as inputs.  The script
rebinds the local `user_question` to its stripped form inside the generate
branch; the run branch is only reachable when the (possibly updated)
`generated_sql` is truthy.  `clear_button` is created by the script but never
read again — no clear handler exists — so it is ignored here, as in the
source. -/
def mainRerun (st : SessionState) (user_question : List Char)
    (generate_button clear_button : Bool)
    (call : Nat → Except (List Char) ChatResponse) (run_button : Bool)
    (edited_sql : List Char) (conn : Bool)
    (db : List Char → Except (List Char) Df) : SessionState :=
  let uq := if generate_button ∧ user_question ≠ [] then pyStrip user_question
            else user_question
  let st1 := (generateAction st generate_button user_question call).1
  match st1.generated_sql with
  | some gsql => if gsql ≠ [] then runAction st1 run_button edited_sql uq conn db
                 else st1
  | none => st1

/-- The `Ask AI` handler of `app.py` (`if st.button("Ask AI"): if
user_prompt.strip() != "":`): call `ask_openai` and run the returned SQL.
An exception raised by the chat-completion call is not caught anywhere in
this handler, so it escapes as the `Except.error` of the first component;
the second component reports whether `ask_openai` was invoked. -/
def askAiHandler (button : Bool) (user_prompt : List Char)
    (call : Except (List Char) ChatResponse)
    (db : List Char → Except (List Char) Df) :
    Except (List Char) (Option (Df × List (List Char))) × Bool :=
  if button ∧ pyStrip user_prompt ≠ [] then
    match ask_openai call with
    | .ok ai_sql => (.ok (some (query_db db ai_sql)), true)
    | .error e => (.error e, true)
  else (.ok none, false)

theorem dropWhile_self_idem (p : Char → Bool) (l : List Char) :
    (l.dropWhile p).dropWhile p = l.dropWhile p := by
  induction l with
  | nil => rfl
  | cons a t ih =>
    by_cases hp : p a
    · simp [List.dropWhile_cons, hp, ih]
    · simp [List.dropWhile_cons, hp]

theorem dropWhile_head_false {p : Char → Bool} {l : List Char} {c : Char}
    {cs : List Char} (h : l.dropWhile p = c :: cs) : p c = false := by
  induction l with
  | nil => simp at h
  | cons a t ih =>
    by_cases hp : p a
    · rw [List.dropWhile_cons_of_pos hp] at h; exact ih h
    · rw [List.dropWhile_cons_of_neg hp] at h
      cases h; simpa using hp

theorem dropWhile_append_all {p : Char → Bool} {l₁ : List Char}
    (l₂ : List Char) (h : ∀ x ∈ l₁, p x) :
    (l₁ ++ l₂).dropWhile p = l₂.dropWhile p := by
  induction l₁ with
  | nil => rfl
  | cons a t ih =>
    rw [List.cons_append, List.dropWhile_cons_of_pos (h a (by simp))]
    exact ih (fun x hx => h x (by simp [hx]))

theorem dropWhile_append_ne {p : Char → Bool} {l₁ : List Char}
    (l₂ : List Char) (h : l₁.dropWhile p ≠ []) :
    (l₁ ++ l₂).dropWhile p = l₁.dropWhile p ++ l₂ := by
  cases hd : l₁.dropWhile p with
  | nil => exact absurd hd h
  | cons a t => rw [List.dropWhile_append, hd]; simp

theorem stripTrail_eq_nil_of_all {l : List Char} (h : ∀ x ∈ l, pyWs x) :
    stripTrail l = [] := by
  unfold stripTrail
  rw [List.dropWhile_eq_nil_iff.mpr (fun x hx => h x (List.mem_reverse.mp hx))]
  rfl

theorem stripTrail_cons_of_exists {c : Char} {l : List Char}
    (h : ¬ ∀ x ∈ l, pyWs x) : stripTrail (c :: l) = c :: stripTrail l := by
  unfold stripTrail
  rw [List.reverse_cons]
  have hne : l.reverse.dropWhile pyWs ≠ [] := by
    intro hnil
    exact h fun x hx =>
      List.dropWhile_eq_nil_iff.mp hnil x (List.mem_reverse.mpr hx)
  rw [dropWhile_append_ne _ hne, List.reverse_append]
  simp

theorem stripTrail_cons_of_not_ws {c : Char} (l : List Char)
    (h : pyWs c = false) : stripTrail (c :: l) = c :: stripTrail l := by
  by_cases hall : ∀ x ∈ l, pyWs x
  · rw [stripTrail_eq_nil_of_all hall]
    unfold stripTrail
    rw [List.reverse_cons,
      dropWhile_append_all [c] (fun x hx => hall x (List.mem_reverse.mp hx)),
      List.dropWhile_cons_of_neg (by simp [h])]
    rfl
  · exact stripTrail_cons_of_exists hall

theorem stripTrail_idem (l : List Char) :
    stripTrail (stripTrail l) = stripTrail l := by
  unfold stripTrail
  rw [List.reverse_reverse, dropWhile_self_idem]

theorem pyStrip_idem (l : List Char) : pyStrip (pyStrip l) = pyStrip l := by
  unfold pyStrip
  have hm : (stripTrail (l.dropWhile pyWs)).dropWhile pyWs
      = stripTrail (l.dropWhile pyWs) := by
    cases hd : l.dropWhile pyWs with
    | nil => simp [stripTrail]
    | cons a t =>
      have ha : pyWs a = false := dropWhile_head_false hd
      rw [stripTrail_cons_of_not_ws t ha,
        List.dropWhile_cons_of_neg (by simp [ha])]
  rw [hm, stripTrail_idem]

theorem pyWs_backtick_beq {c : Char} (h : pyWs c = true) : (c == '`') = false := by
  by_cases hc : c = '`'
  · subst hc; exact absurd h (by decide)
  · exact beq_eq_false_iff_ne.mpr hc

theorem isFence_cons_false {c : Char} (cs : List Char) (h : pyWs c = true) :
    isFence (c :: cs) = false := by
  cases cs with
  | nil => rfl
  | cons b cs' =>
    cases cs' with
    | nil => rfl
    | cons d cs'' => simp [isFence, pyWs_backtick_beq h]

theorem isFence_head {c : Char} {cs : List Char} (h : isFence (c :: cs) = true) :
    c = '`' := by
  cases cs with
  | nil => exact absurd h (by simp [isFence])
  | cons b cs' =>
    cases cs' with
    | nil => exact absurd h (by simp [isFence])
    | cons d cs'' =>
      simp [isFence] at h
      exact h.1.1

theorem isFence_decomp {l : List Char} (h : isFence l = true) :
    l = fenceChars ++ l.drop 3 := by
  match l with
  | [] => exact absurd h (by simp [isFence])
  | [a] => exact absurd h (by simp [isFence])
  | [a, b] => exact absurd h (by simp [isFence])
  | a :: b :: d :: rest =>
    simp [isFence] at h
    obtain ⟨⟨ha, hb⟩, hd⟩ := h
    subst ha; subst hb; subst hd
    rfl

theorem isFence_fence_append (r : List Char) :
    isFence (fenceChars ++ r) = true := rfl

theorem splitAtFence_of_isFence {u : List Char} (h : isFence u = true) :
    splitAtFence u = some ([], u.drop 3) := by
  cases u with
  | nil => exact absurd h (by simp [isFence])
  | cons a t => simp [splitAtFence, h]

theorem splitAtFence_cons_of_not {c : Char} {cs : List Char}
    (h : isFence (c :: cs) = false) :
    splitAtFence (c :: cs) = (splitAtFence cs).map (fun pr => (c :: pr.1, pr.2)) := by
  simp [splitAtFence, h]

theorem splitAtFence_append {t : List Char} {pr : List Char × List Char}
    (h : splitAtFence t = some pr) : t = pr.1 ++ fenceChars ++ pr.2 := by
  induction t generalizing pr with
  | nil => simp [splitAtFence] at h
  | cons c cs ih =>
    by_cases hf : isFence (c :: cs)
    · rw [splitAtFence_of_isFence hf] at h
      cases h
      simpa using isFence_decomp hf
    · rw [splitAtFence_cons_of_not (by simpa using hf)] at h
      obtain ⟨q, hq, hmap⟩ := Option.map_eq_some'.mp h
      subst hmap
      simp [ih hq]

theorem splitAtFence_dropWhile (t : List Char) :
    splitAtFence (t.dropWhile pyWs)
      = (splitAtFence t).map (fun pr => (pr.1.dropWhile pyWs, pr.2)) := by
  induction t with
  | nil => rfl
  | cons c cs ih =>
    by_cases hw : pyWs c
    · rw [List.dropWhile_cons_of_pos hw,
        splitAtFence_cons_of_not (isFence_cons_false cs hw), ih]
      cases hs : splitAtFence cs <;> simp [List.dropWhile_cons_of_pos hw]
    · rw [List.dropWhile_cons_of_neg hw]
      by_cases hf : isFence (c :: cs)
      · rw [splitAtFence_of_isFence hf]
        simp
      · rw [splitAtFence_cons_of_not (by simpa using hf)]
        cases hs : splitAtFence cs <;>
          simp [List.dropWhile_cons_of_neg hw]

theorem fenceAfterWs_eq_some {s r : List Char} :
    fenceAfterWs s = some r
      ↔ isFence (s.dropWhile pyWs) = true ∧ r = (s.dropWhile pyWs).drop 3 := by
  unfold fenceAfterWs
  split <;> simp_all
  exact eq_comm

theorem fenceAfterWs_eq_none {s : List Char} :
    fenceAfterWs s = none ↔ isFence (s.dropWhile pyWs) = false := by
  unfold fenceAfterWs
  split <;> simp_all

theorem capRun_eq (t : List Char) :
    capRun t = (splitAtFence t).map (fun pr => (stripTrail pr.1, pr.2)) := by
  induction t with
  | nil => rfl
  | cons c cs ih =>
    cases hF : fenceAfterWs (c :: cs) with
    | some rest =>
      obtain ⟨hfu, hrest⟩ := fenceAfterWs_eq_some.mp hF
      have h1 : splitAtFence ((c :: cs).dropWhile pyWs)
          = some ([], ((c :: cs).dropWhile pyWs).drop 3) :=
        splitAtFence_of_isFence hfu
      rw [splitAtFence_dropWhile (c :: cs)] at h1
      obtain ⟨pr, hpr, heq⟩ := Option.map_eq_some'.mp h1
      have hpre : pr.1.dropWhile pyWs = [] := congrArg Prod.fst heq
      have hpost : pr.2 = ((c :: cs).dropWhile pyWs).drop 3 :=
        (congrArg Prod.snd heq).symm ▸ rfl
      unfold capRun
      rw [hF, hpr]
      have hall : ∀ x ∈ pr.1, pyWs x := List.dropWhile_eq_nil_iff.mp hpre
      simp [stripTrail_eq_nil_of_all hall, ← hrest,
        show pr.2 = rest from by rw [congrArg Prod.snd heq, hrest]]
    | none =>
      have hf : isFence (c :: cs) = false := by
        by_contra hcontra
        have hc : c = '`' := isFence_head (by simpa using hcontra)
        have hcw : pyWs c = false := by subst hc; decide
        have : fenceAfterWs (c :: cs) = some ((c :: cs).drop 3) := by
          apply fenceAfterWs_eq_some.mpr
          rw [List.dropWhile_cons_of_neg (by simp [hcw])]
          exact ⟨by simpa using hcontra, rfl⟩
        rw [this] at hF
        exact Option.noConfusion hF
      unfold capRun
      rw [hF, ih, splitAtFence_cons_of_not hf]
      cases hs : splitAtFence cs with
      | none => simp
      | some pr =>
        simp only [Option.map_some']
        by_cases hw : pyWs c
        · by_cases hall : ∀ x ∈ pr.1, pyWs x
          · exfalso
            have hdecomp : cs = pr.1 ++ fenceChars ++ pr.2 := splitAtFence_append hs
            have hdw : (c :: cs).dropWhile pyWs = fenceChars ++ pr.2 := by
              rw [List.dropWhile_cons_of_pos hw, hdecomp, List.append_assoc,
                dropWhile_append_all _ hall]
              exact List.dropWhile_cons_of_neg (by decide)
            have : isFence ((c :: cs).dropWhile pyWs) = true := by
              rw [hdw]; exact isFence_fence_append pr.2
            rw [fenceAfterWs_eq_none] at hF
            rw [hF] at this
            exact Bool.noConfusion this
          · rw [stripTrail_cons_of_exists hall]
        · rw [stripTrail_cons_of_not_ws pr.1 (by simpa using hw)]

theorem capRun_dropWhile (t : List Char) :
    capRun (t.dropWhile pyWs)
      = (splitAtFence t).map (fun pr => (pyStrip pr.1, pr.2)) := by
  rw [capRun_eq, splitAtFence_dropWhile]
  cases splitAtFence t <;> simp [pyStrip]

theorem findallSqlFirst_eq_prefixSqlBlock (s : List Char) :
    findallSqlFirst s = prefixSqlBlock s := by
  induction s with
  | nil => rfl
  | cons c cs ih =>
    unfold findallSqlFirst prefixSqlBlock
    by_cases ht : tagSql (c :: cs)
    · simp only [ht, if_true]
      rw [capRun_dropWhile]
      cases hs : splitAtFence ((c :: cs).drop 6) <;> simp [ih]
    · simp [ht, ih]

theorem pyStrip_extract (s : List Char) :
    pyStrip (extract_sql_from_response s) = extract_sql_from_response s := by
  unfold extract_sql_from_response
  cases findallSqlFirst s with
  | some m => exact pyStrip_idem m
  | none =>
    cases findallCodeFirst s with
    | some m => exact pyStrip_idem m
    | none => exact pyStrip_idem s

theorem prefixSqlBlock_stripped {s m : List Char}
    (h : prefixSqlBlock s = some m) : pyStrip m = m := by
  induction s with
  | nil => simp [prefixSqlBlock] at h
  | cons c cs ih =>
    unfold prefixSqlBlock at h
    by_cases ht : tagSql (c :: cs)
    · simp only [ht, if_true] at h
      cases hs : splitAtFence ((c :: cs).drop 6) with
      | some pr =>
        rw [hs] at h
        injection h with h'
        rw [← h']
        exact pyStrip_idem pr.1
      | none =>
        rw [hs] at h
        exact ih h
    · simp only [ht, if_false] at h
      exact ih h

/-- Claim C7: for every input string, `extract_sql_from_response` is total —
it is a plain total function of the embedding, returning a string on every
input — and moreover every branch returns a fully trimmed string: stripping
its result again changes nothing. -/
theorem extract_total_trimmed (s : List Char) :
    pyStrip (extract_sql_from_response s) = extract_sql_from_response s :=
  pyStrip_extract s

/-- Claim C8 (counterexample): the code's tag test is a prefix test, not the
"explicitly tagged" one of the claim.  On the input
` ```sqlite(newline)A(newline)``` ```sql(newline)B(newline)``` ` the first —
and only — block explicitly tagged `sql` has trimmed content `B`, yet the
program matches the `sqlite` fence first and returns `ite(newline)A`: half of
the `sqlite` info string followed by the wrong block's body. -/
theorem extract_ignores_exact_sql_tag :
    specFirstSqlBlock ("```sqlite\nA\n``` ```sql\nB\n```".toList)
        = some ("B".toList)
      ∧ extract_sql_from_response ("```sqlite\nA\n``` ```sql\nB\n```".toList)
        = "ite\nA".toList :=
  ⟨by decide, by decide⟩

/-- Claim C8 (amended): whenever the input contains a fence whose following
characters begin with `sql` (case-insensitively) and that is closed by a
later fence — the first-match prefix reading `prefixSqlBlock` —
`extract_sql_from_response` returns exactly the trimmed text between that
six-character prefix and the next fence, ignoring all other fenced blocks.
For a block tagged exactly `sql` this is the block's trimmed content, but a
longer tag such as `sqlite` also matches and the remainder of its info
string is included in the returned text. -/
theorem extract_first_prefix_tagged_block (s m : List Char)
    (h : prefixSqlBlock s = some m) : extract_sql_from_response s = m := by
  unfold extract_sql_from_response
  rw [findallSqlFirst_eq_prefixSqlBlock, h]
  exact prefixSqlBlock_stripped h

theorem extract_first_prefix_tagged_block_witness :
    prefixSqlBlock ("x ```sql\n SELECT 2 \n``` y ```z```".toList)
        = some ("SELECT 2".toList)
      ∧ extract_sql_from_response ("x ```sql\n SELECT 2 \n``` y ```z```".toList)
        = "SELECT 2".toList :=
  ⟨by decide, extract_first_prefix_tagged_block _ _ (by decide)⟩

/-- Claim C1 (code bug): on an input with no `sql`-tagged block but with a
generic fenced block whose trimmed content is `SELECT 1;`, the code returns
the empty string, not the block's content: the greedy `(?:.*)?` of the
fallback pattern consumes the block body, leaving an empty capture group. -/
theorem extract_generic_block_returns_empty :
    specFirstSqlBlock ("```\nSELECT 1;\n```".toList) = none
      ∧ specFirstGenericBlock ("```\nSELECT 1;\n```".toList)
          = some ("SELECT 1;".toList)
      ∧ extract_sql_from_response ("```\nSELECT 1;\n```".toList) = [] :=
  ⟨by decide, by decide, by decide⟩

/-- Claim C2 (counterexample): a whitespace-only question does invoke the
generator in `llm_app.py` — the guard `if generate_button and user_question:`
tests Python truthiness of the raw text, and `" "` is truthy; the question is
only stripped afterwards. -/
theorem whitespace_question_invokes_generator :
    pyStrip [' '] = []
      ∧ (generateAction ⟨none, none, []⟩ true [' ']
          (fun _ => Except.error [])).2 = true :=
  ⟨by decide, by decide⟩

/-- Claim C2 (amended): with the button pressed, `llm_app.py` invokes the
generator exactly when the raw question text is nonempty — so the empty
question is rejected but a whitespace-only one is not — while `app.py`
invokes it exactly when the prompt is nonempty after stripping, rejecting
both empty and whitespace-only prompts. -/
theorem generator_invocation_guard :
    (∀ (st : SessionState) (call : Nat → Except (List Char) ChatResponse)
        (q : List Char), ((generateAction st true q call).2 = true ↔ q ≠ []))
      ∧ (∀ (p : List Char) (call : Except (List Char) ChatResponse)
          (db : List Char → Except (List Char) Df),
          ((askAiHandler true p call db).2 = true ↔ pyStrip p ≠ [])) := by
  constructor
  · intro st call q
    unfold generateAction
    by_cases hq : q = []
    · subst hq
      simp
    · rw [if_pos ⟨rfl, hq⟩]
      cases (generate_sql_with_gpt call).1 <;> simp [hq]
  · intro p call db
    unfold askAiHandler
    by_cases hp : pyStrip p = []
    · rw [if_neg (fun h => h.2 hp)]
      simp [hp]
    · rw [if_pos ⟨rfl, hp⟩]
      cases ask_openai call <;> simp [hp]

/-- Claim C3 (counterexample): in `app.py`, a failing language-model call is
not caught anywhere in the Ask-AI handler — the exception propagates out of
the handler instead of being converted into an absent result. -/
theorem ask_openai_failure_propagates :
    (askAiHandler true ['q'] (Except.error ("boom".toList))
        (fun _ => Except.ok ⟨[], []⟩)).1 = Except.error ("boom".toList) := rfl

/-- Claim C3 (amended): in `llm_app.py`, `generate_sql_with_gpt` catches any
failure of the language-model call at its own boundary, surfaces the
underlying message, and returns an absent result, with exactly one attempt
ever made; in `app.py`, `ask_openai` also makes a single attempt but does not
catch failures — the exception propagates out of the Ask-AI handler. -/
theorem generation_failure_handling :
    (∀ (call : Nat → Except (List Char) ChatResponse) (e : List Char),
        call 0 = Except.error e →
        generate_sql_with_gpt call
          = (none, [("Error calling OpenAI API: ".toList ++ e)], 1))
      ∧ (∀ call, (generate_sql_with_gpt call).2.2 = 1)
      ∧ (∀ (p e : List Char) (db : List Char → Except (List Char) Df),
          pyStrip p ≠ [] →
          (askAiHandler true p (Except.error e) db).1 = Except.error e) := by
  refine ⟨?_, ?_, ?_⟩
  · intro call e h
    unfold generate_sql_with_gpt
    rw [h]
  · intro call
    unfold generate_sql_with_gpt
    cases call 0 <;> rfl
  · intro p e db hp
    unfold askAiHandler
    rw [if_pos ⟨rfl, hp⟩]
    rfl

theorem generation_failure_handling_witness :
    generate_sql_with_gpt (fun _ => Except.error ("down".toList))
        = (none, [("Error calling OpenAI API: ".toList ++ "down".toList)], 1)
      ∧ (askAiHandler true ['q'] (Except.error ("down".toList))
          (fun _ => Except.ok ⟨[], []⟩)).1 = Except.error ("down".toList) :=
  ⟨generation_failure_handling.1 _ _ rfl,
   generation_failure_handling.2.2 ['q'] _ _ (by decide)⟩

/-- Claim C4: when the generate handler runs (button pressed, question
truthy) with a question whose stripped form differs from the recorded
`current_question`, the stale `generated_sql` is cleared before the generate
call is issued (`generateClear`, the state in force at the call), and after
the whole action the stored SQL is either absent or the SQL freshly extracted
from this call's response, recorded against the new question — never the
stale SQL of the old question. -/
theorem generate_clears_stale_sql
    (st : SessionState) (q : List Char)
    (call : Nat → Except (List Char) ChatResponse)
    (hq : q ≠ []) (hdiff : st.current_question ≠ some (pyStrip q)) :
    (generateClear st (pyStrip q)).generated_sql = none
      ∧ ((generateAction st true q call).1.generated_sql = none
          ∨ ∃ resp, call 0 = Except.ok resp
              ∧ (generateAction st true q call).1.generated_sql
                  = some (extract_sql_from_response resp.content)
              ∧ (generateAction st true q call).1.current_question
                  = some (pyStrip q)) := by
  have hclear : (generateClear st (pyStrip q)).generated_sql = none := by
    unfold generateClear
    rw [if_pos hdiff]
  refine ⟨hclear, ?_⟩
  unfold generateAction
  rw [if_pos ⟨rfl, hq⟩]
  cases hc : call 0 with
  | error e =>
    left
    simp [generate_sql_with_gpt, hc, hclear]
  | ok resp =>
    by_cases hne : extract_sql_from_response resp.content = []
    · left
      simp [generate_sql_with_gpt, hc, hne, hclear]
    · right
      exact ⟨resp, rfl, by simp [generate_sql_with_gpt, hc, hne]⟩

theorem generate_clears_stale_sql_witness :
    (generateClear ⟨some ("SELECT OLD".toList), some ("old".toList), []⟩
        (pyStrip ("new".toList))).generated_sql = none
      ∧ ((generateAction ⟨some ("SELECT OLD".toList), some ("old".toList), []⟩
            true ("new".toList) (fun _ => Except.error [])).1.generated_sql = none
          ∨ ∃ resp : ChatResponse,
              (Except.error [] : Except (List Char) ChatResponse) = Except.ok resp
              ∧ (generateAction ⟨some ("SELECT OLD".toList), some ("old".toList), []⟩
                  true ("new".toList) (fun _ => Except.error [])).1.generated_sql
                    = some (extract_sql_from_response resp.content)
              ∧ (generateAction ⟨some ("SELECT OLD".toList), some ("old".toList), []⟩
                  true ("new".toList) (fun _ => Except.error [])).1.current_question
                    = some (pyStrip ("new".toList))) :=
  generate_clears_stale_sql _ _ _ (by decide) (by decide)

/-- Claim C5: the run handler's effect on the history is exactly: if the
handler ran, the connection was up and the backend succeeded on the edited
SQL, one entry carrying the (always-known) row count of the returned table is
appended; in every other case — handler not run, connection down, or the
statement failing — the history is left unchanged. -/
theorem history_append_iff_success
    (st : SessionState) (b conn : Bool) (sql q : List Char)
    (db : List Char → Except (List Char) Df) :
    (∃ df, b = true ∧ pyStrip sql ≠ [] ∧ conn = true ∧ db sql = Except.ok df
        ∧ (runAction st b sql q conn db).query_history
            = st.query_history ++ [⟨q, sql, df.rows.length⟩])
      ∨ ((¬ ∃ df, b = true ∧ pyStrip sql ≠ [] ∧ conn = true
            ∧ db sql = Except.ok df)
          ∧ (runAction st b sql q conn db).query_history = st.query_history) := by
  by_cases hb : b = true ∧ pyStrip sql ≠ []
  · obtain ⟨hb1, hsql⟩ := hb
    subst hb1
    have hcond : (true = true) ∧ pyStrip sql ≠ [] := ⟨rfl, hsql⟩
    cases conn with
    | false =>
      right
      refine ⟨fun ⟨df, _, _, hconn, _⟩ => Bool.noConfusion hconn, ?_⟩
      unfold runAction
      rw [if_pos hcond]
      rfl
    | true =>
      cases hdb : db sql with
      | ok df =>
        left
        refine ⟨df, rfl, hsql, rfl, rfl, ?_⟩
        unfold runAction
        rw [if_pos hcond]
        unfold run_query
        rw [if_pos rfl, hdb]
      | error e =>
        right
        refine ⟨fun ⟨df, _, _, _, hok⟩ => Except.noConfusion hok, ?_⟩
        unfold runAction
        rw [if_pos hcond]
        unfold run_query
        rw [if_pos rfl, hdb]
  · right
    refine ⟨fun ⟨df, hb1, hsql, _, _⟩ => hb ⟨hb1, hsql⟩, ?_⟩
    unfold runAction
    rw [if_neg hb]

/-- Claim C6: a failing SQL statement (syntax or runtime error from the
backend) is reported by both executors as an error message carrying the
underlying text, with no table: `run_query` of `llm_app.py` returns an absent
result, `query_db` of `app.py` returns the empty table — never a partial
one. -/
theorem execute_failure_reports_error
    (db : List Char → Except (List Char) Df) (sql e : List Char)
    (h : db sql = Except.error e) :
    run_query true db sql = (none, [("Error executing query: ".toList ++ e)])
      ∧ query_db db sql = (⟨[], []⟩, [("SQL error: ".toList ++ e)]) := by
  constructor
  · unfold run_query
    rw [if_pos rfl, h]
  · unfold query_db
    rw [h]

theorem execute_failure_reports_error_witness :
    run_query true (fun _ => Except.error ("near SELEKT: syntax error".toList))
        ("SELEKT * FROM patients".toList)
      = (none, [("Error executing query: ".toList
          ++ "near SELEKT: syntax error".toList)])
      ∧ query_db (fun _ => Except.error ("near SELEKT: syntax error".toList))
          ("SELEKT * FROM patients".toList)
        = (⟨[], []⟩, [("SQL error: ".toList
            ++ "near SELEKT: syntax error".toList)]) :=
  execute_failure_reports_error _ _ _ rfl

/-- Claim C9 (code bug): the `Clear History` button of `llm_app.py` is
created but never read again — `main` contains no handler for it — so
clicking it (a rerun with `clear_button` pressed and nothing else happening)
leaves the query history exactly as it was instead of resetting it to
empty. -/
theorem clear_history_button_noop :
    (mainRerun ⟨none, none, [⟨['q'], ['s'], 1⟩]⟩ [] false true
        (fun _ => Except.error []) false [] true
        (fun _ => Except.error [])).query_history = [⟨['q'], ['s'], 1⟩] := rfl

/-- Claim C10: the history entry appended by a successful run records as its
question the text-area content of the rerun in which `Run Query` was clicked
(`qB`), not the stored `current_question` that produced the generated SQL:
after generating for question `qA` and then running the generated SQL with
the text area showing `qB`, the appended entry pairs `qB` with the SQL
generated for `qA`, while `current_question` still holds the stripped
`qA`. -/
theorem history_entry_question_at_run_time
    (st : SessionState) (qA qB : List Char)
    (call : Nat → Except (List Char) ChatResponse) (resp : ChatResponse)
    (db : List Char → Except (List Char) Df) (df : Df)
    (hcall : call 0 = Except.ok resp) (hqA : qA ≠ [])
    (hg : extract_sql_from_response resp.content ≠ [])
    (hdb : db (extract_sql_from_response resp.content) = Except.ok df) :
    (mainRerun (generateAction st true qA call).1 qB false false call true
        (extract_sql_from_response resp.content) true db).query_history
      = (generateAction st true qA call).1.query_history
        ++ [⟨qB, extract_sql_from_response resp.content, df.rows.length⟩]
      ∧ (generateAction st true qA call).1.current_question
          = some (pyStrip qA) := by
  have hst1 : (generateAction st true qA call).1
      = { generateClear st (pyStrip qA) with
          generated_sql := some (extract_sql_from_response resp.content),
          current_question := some (pyStrip qA) } := by
    unfold generateAction
    rw [if_pos ⟨rfl, hqA⟩]
    simp [generate_sql_with_gpt, hcall, hg]
  have hstrip : pyStrip (extract_sql_from_response resp.content)
      = extract_sql_from_response resp.content := pyStrip_extract resp.content
  constructor
  · rw [hst1]
    simp [mainRerun, generateAction, runAction, run_query, hstrip, hg, hdb]
  · rw [hst1]

theorem history_entry_question_at_run_time_witness :
    (mainRerun (generateAction ⟨none, none, []⟩ true ("old q".toList)
          (fun _ => (Except.ok ⟨"SELECT 1".toList⟩
            : Except (List Char) ChatResponse))).1
        ("new q".toList) false false
        (fun _ => (Except.ok ⟨"SELECT 1".toList⟩
          : Except (List Char) ChatResponse))
        true (extract_sql_from_response ("SELECT 1".toList)) true
        (fun _ => (Except.ok ⟨[['n']], [[['v']]]⟩
          : Except (List Char) Df))).query_history
      = (generateAction ⟨none, none, []⟩ true ("old q".toList)
          (fun _ => (Except.ok ⟨"SELECT 1".toList⟩
            : Except (List Char) ChatResponse))).1.query_history
        ++ [⟨"new q".toList, extract_sql_from_response ("SELECT 1".toList),
            (⟨[['n']], [[['v']]]⟩ : Df).rows.length⟩]
      ∧ (generateAction ⟨none, none, []⟩ true ("old q".toList)
          (fun _ => (Except.ok ⟨"SELECT 1".toList⟩
            : Except (List Char) ChatResponse))).1.current_question
          = some (pyStrip ("old q".toList)) :=
  history_entry_question_at_run_time ⟨none, none, []⟩ ("old q".toList)
    ("new q".toList)
    (fun _ => (Except.ok ⟨"SELECT 1".toList⟩ : Except (List Char) ChatResponse))
    ⟨"SELECT 1".toList⟩
    (fun _ => (Except.ok ⟨[['n']], [[['v']]]⟩ : Except (List Char) Df))
    ⟨[['n']], [[['v']]]⟩ rfl (by decide) (by decide) rfl
